import Mathlib

/-!
Verification of the review-request draft resource
(`reviewboard/webapi/resources/review_request_draft.py`).

The embedding models the draft field-update protocol of
`ReviewRequestDraftResource`: `_set_draft_field_data`, `_sanitize_bug_ids`,
`_find_user`, `update`, `create` and `delete`.  Database lookups
(`Group.objects.get`, `User.objects.get`, `ReviewRequest.objects.for_id`,
the authentication backends) are abstracted as an explicit lookup
environment; persistence (`save`, `ReviewRequestDraft.create`,
`ReviewRequest.publish`), whose model classes are outside this file's
source, is modelled from the spec as an explicit store snapshot.
-/

/-- The mutable fields of the draft resource.  The source's `fields` dict
also declares `id`, `review_request` and `last_updated` with
`"mutable": False`; the update loop filters those out
(`field_info.get("mutable", True)`), so they never reach
`_set_draft_field_data` and are omitted here. -/
inductive FieldName
  | branch
  | bugs_closed
  | depends_on
  | changedescription
  | description
  | publicFlag
  | summary
  | target_groups
  | target_people
  | testing_done
deriving DecidableEq, Repr

/-- Outcome of one ORM `get`-style lookup: a row was found, the
`DoesNotExist` exception was raised, or some other exception was raised. -/
inductive DbLookup
  | found (id : Nat)
  | notFound
  | raised
deriving DecidableEq, Repr

/-- Outcome of one call to `backend.get_or_create_user(username, request)`:
a user object (truthy), `None`, or an exception. -/
inductive BackendResult
  | user (u : Nat)
  | noUser
  | exn
deriving DecidableEq, Repr

/-- The user-lookup world seen by `_find_user`: the optional
`local_site.users` manager, `User.objects`, and the ordered list of
authentication backends from `auth.get_backends()`. -/
structure UserEnv where
  localSiteUsers : Option (String → Option Nat)
  usersGet : String → DbLookup
  backends : List (String → BackendResult)

/-- All external lookups used when resolving multi-reference tokens:
`Group.objects.get` (by name or display name, site-scoped),
the lookup environment of `_find_user`, and `ReviewRequest.objects.for_id`. -/
structure LookupEnv where
  groupGet : String → DbLookup
  userEnv : UserEnv
  forId : String → DbLookup

/-- The draft's own columns and many-to-many reference sets.  Reference
sets hold entity ids; a Django M2M set is unordered, modelled as a
duplicate-free list in insertion order. -/
structure DraftState where
  branch : String
  bugs_closed : String
  description : String
  publicFlag : Bool
  summary : String
  testing_done : String
  target_groups : List Nat
  target_people : List Nat
  depends_on : List Nat
deriving DecidableEq, Repr

/-- The in-memory working state during an update: the draft plus its
attached change-description object.  `cd = none` means
`draft.changedesc` is `None` (the review request was never published);
`cd = some t` means a change description is attached with text `t`. -/
structure WorkState where
  draft : DraftState
  cd : Option String
deriving DecidableEq, Repr

/-- The side objects that `_set_draft_field_data` can report as modified.
In this resource only the draft's change description ever appears. -/
inductive ModObj
  | changedesc
deriving DecidableEq, Repr

/-- A field value as passed through the webapi layer: every field is a
string except `public`, which arrives as a parsed boolean; the
`bugs_closed` branch additionally turns its data into a list before
returning it. -/
inductive FVal
  | s (v : String)
  | b (v : Bool)
  | l (v : List String)
deriving DecidableEq, Repr

/-- Result tuple of `_set_draft_field_data`:
`(data, modified_objects, invalid_entries)` plus the mutated state. -/
structure SetFieldOut where
  state : WorkState
  data : FVal
  modified_objects : List ModObj
  invalid_entries : List String
deriving DecidableEq, Repr

/-- A separator character of the regex `[, ]+`. -/
def isRefSep (c : Char) : Bool := c = ',' || c = ' '

/-- Worker for `splitCommaSpace`.  `inSep` is true while a separator run
is being skipped; `acc` holds the current token's characters reversed. -/
def splitSepsAux : Bool → List Char → List Char → List String
  | false, acc, [] => [String.mk acc.reverse]
  | true, _, [] => [""]
  | false, acc, c :: cs =>
    if isRefSep c then String.mk acc.reverse :: splitSepsAux true [] cs
    else splitSepsAux false (c :: acc) cs
  | true, _, c :: cs =>
    if isRefSep c then splitSepsAux true [] cs
    else splitSepsAux false [c] cs

/-- Embedding of `re.split(r"[, ]+", data)`: split on maximal runs of commas and
spaces, keeping the (possibly empty) pieces at the boundaries. -/
def splitCommaSpace (s : String) : List String :=
  splitSepsAux false [] s.toList

/-- Worker for `splitChar`. -/
def splitCharAux (sep : Char) (acc : List Char) : List Char → List String
  | [] => [String.mk acc.reverse]
  | c :: cs =>
    if c = sep then String.mk acc.reverse :: splitCharAux sep [] cs
    else splitCharAux sep (c :: acc) cs

/-- Python `str.split(sep)` for a one-character separator: every
occurrence splits, and empty pieces are kept. -/
def splitChar (sep : Char) (s : String) : List String :=
  splitCharAux sep [] s.toList

/-- Python `str.strip()`: remove leading and trailing whitespace. -/
def pyStrip (s : String) : String :=
  String.mk ((s.toList.dropWhile Char.isWhitespace).reverse.dropWhile
    Char.isWhitespace).reverse

/-- Embedding of `if bug[0] == '#': bug = bug[1:]` — strip one leading `#`. -/
def stripLeadHash (b : String) : String :=
  match b.toList with
  | '#' :: rest => String.mk rest
  | _ => b

/-- Embedding of `self._sanitize_bug_ids(entries)`: split on commas, strip whitespace,
skip entries empty after stripping, strip one leading `#`, yield. -/
def sanitize_bug_ids (entries : String) : List String :=
  (splitChar ',' entries).filterMap fun bug =>
    let bug := pyStrip bug
    if bug = "" then none
    else some (stripLeadHash bug)

/-- The `for backend in auth.get_backends()` loop of `_find_user`.
`bound` tracks the local variable `user`: `none` when it was never
assigned (an exception from the very first backend leaves it unbound, so
the `if user:` test raises `NameError`, modelled as `.error ()`), and
`some prev` after an assignment. -/
def backendsLoop : List (String → BackendResult) → String →
    Option (Option Nat) → Except Unit (Option Nat)
  | [], _, _ => .ok none
  | b :: rest, username, bound =>
    match b username with
    | .user u => .ok (some u)
    | .noUser => backendsLoop rest username (some none)
    | .exn =>
      match bound with
      | none => .error ()
      | some (some u) => .ok (some u)
      | some none => backendsLoop rest username bound

/-- Embedding of `self._find_user(username, local_site, request)`: strip the username;
with a local site, look it up in `local_site.users` (a miss raises, which
propagates); otherwise try `User.objects.get`, and on `DoesNotExist` fall
back to the authentication backends.  `.error ()` is an exception
escaping `_find_user`; `.ok none` is the final `return None`. -/
def find_user (env : UserEnv) (username : String) : Except Unit (Option Nat) :=
  let username := pyStrip username
  match env.localSiteUsers with
  | some siteGet =>
    match siteGet username with
    | some u => .ok (some u)
    | none => .error ()
  | none =>
    match env.usersGet username with
    | .found u => .ok (some u)
    | .raised => .error ()
    | .notFound => backendsLoop env.backends username none

/-- Resolution of one non-empty token inside the `try` of the
multi-reference branch: the field-specific lookup followed by
`target.add(obj)`.  `.error ()` means an exception reached the bare
`except:` (lookup miss, lookup error, or `target.add(None)` after
`_find_user` returned `None`). -/
def resolveToken (env : LookupEnv) (f : FieldName) (value : String) :
    Except Unit Nat :=
  match f with
  | .target_groups =>
    match env.groupGet value with
    | .found g => .ok g
    | .notFound => .error ()
    | .raised => .error ()
  | .target_people =>
    match find_user env.userEnv value with
    | .error _ => .error ()
    | .ok none => .error ()
    | .ok (some u) => .ok u
  | .depends_on =>
    match env.forId value with
    | .found r => .ok r
    | .notFound => .error ()
    | .raised => .error ()
  | _ => .error ()

/-- Returns `true` iff resolving the token would append it to `invalid_entries`. -/
def resolveFails (env : LookupEnv) (f : FieldName) (value : String) : Bool :=
  match resolveToken env f value with
  | .ok _ => false
  | .error _ => true

/-- Embedding of `target.add(obj)` on a Django M2M set: adding a present member is a
no-op, otherwise the member is appended. -/
def addRef (target : List Nat) (obj : Nat) : List Nat :=
  if target.contains obj then target else target ++ [obj]

/-- The `for value in values` loop of the multi-reference branch: skip
empty tokens, add resolved entities, collect failing tokens in order. -/
def processTokens (env : LookupEnv) (f : FieldName) :
    List String → List Nat → List String → List Nat × List String
  | [], target, invalid => (target, invalid)
  | v :: rest, target, invalid =>
    if v = "" then processTokens env f rest target invalid
    else
      match resolveToken env f v with
      | .ok obj => processTokens env f rest (addRef target obj) invalid
      | .error _ => processTokens env f rest target (invalid ++ [v])

/-- Whether a field is one of the three multi-reference fields. -/
def multiRef (f : FieldName) : Bool :=
  match f with
  | .target_groups => true
  | .target_people => true
  | .depends_on => true
  | _ => false

/-- Embedding of `getattr(draft, field_name)` for a multi-reference field. -/
def getRefs (d : DraftState) : FieldName → List Nat
  | .target_groups => d.target_groups
  | .target_people => d.target_people
  | .depends_on => d.depends_on
  | _ => []

/-- Replace a multi-reference field's set. -/
def setRefs (d : DraftState) (f : FieldName) (v : List Nat) : DraftState :=
  match f with
  | .target_groups => { d with target_groups := v }
  | .target_people => { d with target_people := v }
  | .depends_on => { d with depends_on := v }
  | _ => d

/-- The multi-reference branch of `_set_draft_field_data`: split the raw
string on `[, ]+`, clear the reference set (`target.clear()`), resolve
each non-empty token and add it, collecting failing tokens in order.  A
non-string value cannot occur here (the request layer coerces these
fields to strings); that arm leaves the state unchanged. -/
def setMultiRef (env : LookupEnv) (ws : WorkState) (f : FieldName)
    (data : FVal) : SetFieldOut :=
  match data with
  | .s dstr =>
    let res := processTokens env f (splitCommaSpace dstr) [] []
    { state := { ws with draft := setRefs ws.draft f res.1 },
      data := .s dstr, modified_objects := [], invalid_entries := res.2 }
  | d => { state := ws, data := d, modified_objects := [], invalid_entries := [] }

/-- Embedding of `self._set_draft_field_data(draft, field_name, data, ...)`.

Multi-reference fields: split on `[, ]+`, clear the set, resolve each
non-empty token, collect failures.  `bugs_closed`: sanitize and store the
comma-join; the returned `data` becomes the sanitized list.
`changedescription`: reject with a fixed message when no change
description is attached, otherwise set its text and report it modified.
Everything else is a direct assignment, except a `summary` containing a
newline, which is rejected with a fixed message.

Combinations that pair a field with a value of the wrong type cannot
arise: the webapi request-field layer coerces every field to the declared
type before the update loop runs; those arms leave the state unchanged. -/
def set_draft_field_data (env : LookupEnv) (ws : WorkState)
    (field_name : FieldName) (data : FVal) : SetFieldOut :=
  match field_name with
  | .target_groups => setMultiRef env ws .target_groups data
  | .target_people => setMultiRef env ws .target_people data
  | .depends_on => setMultiRef env ws .depends_on data
  | .bugs_closed =>
    match data with
    | .s dstr =>
      let lst := sanitize_bug_ids dstr
      { state := { ws with draft := { ws.draft with
          bugs_closed := String.intercalate "," lst } },
        data := .l lst,
        modified_objects := [],
        invalid_entries := [] }
    | d => { state := ws, data := d, modified_objects := [], invalid_entries := [] }
  | .changedescription =>
    match data with
    | .s dstr =>
      match ws.cd with
      | none =>
        { state := ws, data := .s dstr, modified_objects := [],
          invalid_entries :=
            ["Change descriptions cannot be used for drafts of new review requests"] }
      | some _ =>
        { state := { ws with cd := some dstr }, data := .s dstr,
          modified_objects := [.changedesc], invalid_entries := [] }
    | d => { state := ws, data := d, modified_objects := [], invalid_entries := [] }
  | .summary =>
    match data with
    | .s dstr =>
      if dstr.toList.contains '\n' then
        { state := ws, data := .s dstr, modified_objects := [],
          invalid_entries := ["Summary cannot contain newlines"] }
      else
        { state := { ws with draft := { ws.draft with summary := dstr } },
          data := .s dstr, modified_objects := [], invalid_entries := [] }
    | d => { state := ws, data := d, modified_objects := [], invalid_entries := [] }
  | .branch =>
    match data with
    | .s dstr =>
      { state := { ws with draft := { ws.draft with branch := dstr } },
        data := .s dstr, modified_objects := [], invalid_entries := [] }
    | d => { state := ws, data := d, modified_objects := [], invalid_entries := [] }
  | .description =>
    match data with
    | .s dstr =>
      { state := { ws with draft := { ws.draft with description := dstr } },
        data := .s dstr, modified_objects := [], invalid_entries := [] }
    | d => { state := ws, data := d, modified_objects := [], invalid_entries := [] }
  | .testing_done =>
    match data with
    | .s dstr =>
      { state := { ws with draft := { ws.draft with testing_done := dstr } },
        data := .s dstr, modified_objects := [], invalid_entries := [] }
    | d => { state := ws, data := d, modified_objects := [], invalid_entries := [] }
  | .publicFlag =>
    match data with
    | .b v =>
      { state := { ws with draft := { ws.draft with publicFlag := v } },
        data := .b v, modified_objects := [], invalid_entries := [] }
    | d => { state := ws, data := d, modified_objects := [], invalid_entries := [] }

/-- The optional request fields accepted by `update` (and `create`), as
parsed by the `webapi_request_fields` decorator: `none` models a field
absent from the request (`kwargs.get(field_name, None) is None`). -/
structure UpdateInput where
  branch : Option String := none
  bugs_closed : Option String := none
  depends_on : Option String := none
  changedescription : Option String := none
  description : Option String := none
  publicFlag : Option Bool := none
  summary : Option String := none
  target_groups : Option String := none
  target_people : Option String := none
  testing_done : Option String := none
deriving DecidableEq, Repr

/-- Embedding of `kwargs.get(field_name, None)` for each mutable field. -/
def getInput (inp : UpdateInput) : FieldName → Option FVal
  | .branch => inp.branch.map FVal.s
  | .bugs_closed => inp.bugs_closed.map FVal.s
  | .depends_on => inp.depends_on.map FVal.s
  | .changedescription => inp.changedescription.map FVal.s
  | .description => inp.description.map FVal.s
  | .publicFlag => inp.publicFlag.map FVal.b
  | .summary => inp.summary.map FVal.s
  | .target_groups => inp.target_groups.map FVal.s
  | .target_people => inp.target_people.map FVal.s
  | .testing_done => inp.testing_done.map FVal.s

/-- The order in which the update loop visits the mutable fields.  The
source iterates `self.fields.iteritems()`, whose order is an unspecified
dict order; a fixed order is chosen here, and no verified property
depends on it. -/
def fieldOrder : List FieldName :=
  [.branch, .bugs_closed, .depends_on, .changedescription, .description,
   .publicFlag, .summary, .target_groups, .target_people, .testing_done]

/-- The field loop of `update`: thread the working state through
`_set_draft_field_data` for every supplied mutable field, recording
`invalid_fields[field_name] = invalid` when a field reports invalid
entries and otherwise (`elif`) accumulating its modified objects. -/
def runFields (env : LookupEnv) (inp : UpdateInput) (ws : WorkState) :
    WorkState × List ModObj × List (FieldName × List String) :=
  fieldOrder.foldl
    (fun acc f =>
      match getInput inp f with
      | none => acc
      | some d =>
        let out := set_draft_field_data env acc.1 f d
        if out.invalid_entries.isEmpty then
          if out.modified_objects.isEmpty then
            (out.state, acc.2.1, acc.2.2)
          else
            (out.state, acc.2.1 ++ out.modified_objects, acc.2.2)
        else
          (out.state, acc.2.1, acc.2.2 ++ [(f, out.invalid_entries)]))
    (ws, [], [])

/-- Persistent storage touched by this resource: the draft row (with its
reference sets) and the attached change-description row's text.
Modelled from the spec: the model classes live outside this source file,
and the spec describes an invalid, non-forced update as leaving the
draft "unsaved" — all field mutations are in-memory until the explicit
`obj.save()` / `draft.save()` calls copy them here. -/
structure Store where
  draft : Option DraftState
  cd : Option String
deriving DecidableEq, Repr

/-- A request world: whether the parent review request exists, whether
the requester passes the is-mutable-by permission gate, what
`ReviewRequestDraft.create` would instantiate when no draft exists
(modelled from the spec: a copy of the review request's current fields,
built in memory), the store, and a counter of publish invocations. -/
structure World where
  rrExists : Bool
  canMutate : Bool
  draftInit : WorkState
  store : Store
  publishCount : Nat
deriving DecidableEq, Repr

/-- Embedding of `self.prepare_draft(request, review_request)` after the permission
gate: reuse the persisted draft, or instantiate a fresh one copied from
the review request (modelled from the spec, see `World.draftInit`). -/
def loadDraft (w : World) : WorkState :=
  match w.store.draft with
  | some dr => { draft := dr, cd := w.store.cd }
  | none => w.draftInit

/-- The `obj.save()` loop plus `draft.save()`: persist the draft row, and
the change-description row exactly when it was reported modified. -/
def savedStore (store : Store) (ws : WorkState) (mods : List ModObj) : Store :=
  { draft := some ws.draft,
    cd := if mods.contains ModObj.changedesc then ws.cd else store.cd }

/-- Modelled from the spec: `ReviewRequest.publish` (outside this source
file) merges the draft into the review request, marks it public, sends
notifications, and deletes the draft as a unit.  Only the effect on the
draft store is modelled: the draft and its change description cease to
exist. -/
def publishStore (_ : Store) : Store := { draft := none, cd := none }

/-- Truthiness of `request.POST.get("public", False)`: absent means
`False`; present, the raw POST value is a string, truthy iff non-empty
(so a present `public=0` is still truthy — only the raw key matters). -/
def truthyPost : Option String → Bool
  | none => false
  | some s => !(s == "")

/-- Results of `update` (and `create`).  `doesNotExist` and
`permissionDenied` are error objects, not tuples; `invalidFormData` is
the tuple `(INVALID_FORM_DATA, {fields: ..., draft: ...})`;
`ok status d` is the tuple `(status, {draft: d})`. -/
inductive UpdateResult
  | doesNotExist
  | permissionDenied
  | invalidFormData (fields : List (FieldName × List String)) (draft : WorkState)
  | ok (status : Nat) (draft : WorkState)
deriving DecidableEq, Repr

/-- Embedding of `ReviewRequestDraftResource.update`: look up the review request
(miss: `DOES_NOT_EXIST`), prepare the draft behind the permission gate
(failure: no-access error), run the field loop, save draft and modified
objects unless some field was invalid and `always_save` is false, return
the invalid-field mapping when any field was invalid, publish when the
raw POST `public` value is truthy, and return `(200, {draft: ...})`. -/
def update (env : LookupEnv) (w : World) (always_save : Bool)
    (inp : UpdateInput) (postPublic : Option String) : World × UpdateResult :=
  if w.rrExists = false then (w, .doesNotExist)
  else if w.canMutate = false then (w, .permissionDenied)
  else
    let r := runFields env inp (loadDraft w)
    let store1 :=
      if always_save || r.2.2.isEmpty then savedStore w.store r.1 r.2.1
      else w.store
    if r.2.2.isEmpty then
      if truthyPost postPublic then
        ({ w with store := publishStore store1,
                  publishCount := w.publishCount + 1 }, .ok 200 r.1)
      else ({ w with store := store1 }, .ok 200 r.1)
    else ({ w with store := store1 }, .invalidFormData r.2.2 r.1)

/-- The `isinstance(result, tuple)` / `result[0] == 200` check of
`create`: a success tuple whose status is `200` becomes `(201,) +
result[1:]`; anything else is returned unchanged.  (The error objects
are not tuples, and the `INVALID_FORM_DATA` tuple's first element is an
error object, never `200`.) -/
def remap200 : World × UpdateResult → World × UpdateResult
  | (w', .ok s d) => if s = 200 then (w', .ok 201 d) else (w', .ok s d)
  | r => r

/-- Embedding of `ReviewRequestDraftResource.create`: delegate to `update`; when the
result is a tuple whose first element is `200`, remap it to `201` with
the rest unchanged; pass every other result through. -/
def create (env : LookupEnv) (w : World) (always_save : Bool)
    (inp : UpdateInput) (postPublic : Option String) : World × UpdateResult :=
  remap200 (update env w always_save inp postPublic)

/-- Results of `delete`: `deleted` carries the `(204, {})` pair with the
empty payload dict. -/
inductive DeleteResult
  | doesNotExist
  | permissionDenied
  | deleted (status : Nat) (body : List (String × String))
deriving DecidableEq, Repr

/-- Embedding of `ReviewRequestDraftResource.delete`: fetch the review request and the
existing draft (either miss: `DOES_NOT_EXIST`; no lazy creation), check
the delete permission (`draft.is_mutable_by`), delete the draft, return
`(204, {})`. -/
def delete (w : World) : World × DeleteResult :=
  if w.rrExists = false then (w, .doesNotExist)
  else
    match w.store.draft with
    | none => (w, .doesNotExist)
    | some _ =>
      if w.canMutate = false then (w, .permissionDenied)
      else ({ w with store := { w.store with draft := none } }, .deleted 204 [])

/-! ### Concrete fixtures for witnesses and counterexamples -/

/-- A small lookup environment: one group `grp`, one user `alice`, one
review request `5`, no local site, no auth backends. -/
def env0 : LookupEnv :=
  { groupGet := fun s => if s = "grp" then .found 1 else .notFound,
    userEnv :=
      { localSiteUsers := none,
        usersGet := fun s => if s = "alice" then .found 7 else .notFound,
        backends := [] },
    forId := fun s => if s = "5" then .found 5 else .notFound }

/-- An all-empty draft. -/
def draft0 : DraftState :=
  { branch := "", bugs_closed := "", description := "", publicFlag := false,
    summary := "", testing_done := "", target_groups := [],
    target_people := [], depends_on := [] }

/-- A working state with no change description attached. -/
def ws0 : WorkState := { draft := draft0, cd := none }

/-- A world whose review request exists and is mutable, with no
persisted draft yet. -/
def w0 : World :=
  { rrExists := true, canMutate := true, draftInit := ws0,
    store := { draft := none, cd := none }, publishCount := 0 }

/-! ### Lemmas about token processing -/

/-- The invalid-entry list produced by the multi-reference token loop is
the previous list followed by exactly the non-empty tokens whose
resolution fails, in input order. -/
theorem processTokens_invalid (env : LookupEnv) (f : FieldName) :
    ∀ (ts : List String) (target : List Nat) (inv : List String),
    (processTokens env f ts target inv).2 =
      inv ++ ts.filter (fun v => !(v == "") && resolveFails env f v) := by
  intro ts
  induction ts with
  | nil => intro target inv; simp [processTokens]
  | cons v rest ih =>
    intro target inv
    simp only [processTokens]
    by_cases hv : v = ""
    · subst hv
      simp [ih]
    · rw [if_neg hv]
      cases hres : resolveToken env f v with
      | ok obj =>
        rw [ih]
        simp [List.filter_cons, resolveFails, hres, hv]
      | error e =>
        rw [ih]
        simp [List.filter_cons, resolveFails, hres, hv]

/-- Membership in a Django-style M2M `add`. -/
theorem mem_addRef (target : List Nat) (obj x : Nat) :
    x ∈ addRef target obj ↔ x ∈ target ∨ x = obj := by
  unfold addRef
  split
  · next h =>
    replace h : obj ∈ target := List.elem_iff.mp h
    constructor
    · exact Or.inl
    · rintro (hx | rfl)
      · exact hx
      · exact h
  · simp [List.mem_append]

/-- The reference set produced by the multi-reference token loop
contains an entity iff it was already in `target` or some non-empty
token resolves to it. -/
theorem processTokens_mem (env : LookupEnv) (f : FieldName) :
    ∀ (ts : List String) (target : List Nat) (inv : List String) (x : Nat),
    x ∈ (processTokens env f ts target inv).1 ↔
      x ∈ target ∨ ∃ v, v ∈ ts ∧ ¬v = "" ∧ resolveToken env f v = .ok x := by
  intro ts
  induction ts with
  | nil => intro target inv x; simp [processTokens]
  | cons v rest ih =>
    intro target inv x
    simp only [processTokens]
    by_cases hv : v = ""
    · subst hv
      rw [if_pos rfl, ih]
      constructor
      · rintro (hx | ⟨u, hu, hne, hres⟩)
        · exact Or.inl hx
        · exact Or.inr ⟨u, List.mem_cons_of_mem _ hu, hne, hres⟩
      · rintro (hx | ⟨u, hu, hne, hres⟩)
        · exact Or.inl hx
        · rcases List.mem_cons.mp hu with rfl | hu'
          · exact absurd rfl hne
          · exact Or.inr ⟨u, hu', hne, hres⟩
    · rw [if_neg hv]
      cases hres : resolveToken env f v with
      | ok obj =>
        rw [ih, mem_addRef]
        constructor
        · rintro ((hx | rfl) | ⟨u, hu, hne, hres2⟩)
          · exact Or.inl hx
          · exact Or.inr ⟨v, List.mem_cons_self v rest, hv, hres⟩
          · exact Or.inr ⟨u, List.mem_cons_of_mem _ hu, hne, hres2⟩
        · rintro (hx | ⟨u, hu, hne, hres2⟩)
          · exact Or.inl (Or.inl hx)
          · rcases List.mem_cons.mp hu with rfl | hu'
            · rw [hres] at hres2
              injection hres2 with h2
              exact Or.inl (Or.inr h2.symm)
            · exact Or.inr ⟨u, hu', hne, hres2⟩
      | error e =>
        rw [ih]
        constructor
        · rintro (hx | ⟨u, hu, hne, hres2⟩)
          · exact Or.inl hx
          · exact Or.inr ⟨u, List.mem_cons_of_mem _ hu, hne, hres2⟩
        · rintro (hx | ⟨u, hu, hne, hres2⟩)
          · exact Or.inl hx
          · rcases List.mem_cons.mp hu with rfl | hu'
            · rw [hres] at hres2
              exact absurd hres2 (fun hcon => Except.noConfusion hcon)
            · exact Or.inr ⟨u, hu', hne, hres2⟩

/-! ### Claim theorems: field-level processing -/

/-- C3: for every multi-reference field and raw input, the invalid-token
list recorded by `_set_draft_field_data` is exactly the non-empty tokens
whose resolution fails (lookup miss, lookup error, or any exception
reaching the bare `except:`), in input order; every failure is
downgraded to a list entry and processing continues over the remaining
tokens — the function returns normally, never propagating. -/
theorem multiref_invalid_tokens (env : LookupEnv) (ws : WorkState)
    (f : FieldName) (d : String) (hf : multiRef f = true) :
    (set_draft_field_data env ws f (.s d)).invalid_entries =
      (splitCommaSpace d).filter
        (fun v => !(v == "") && resolveFails env f v) := by
  cases f <;> simp [multiRef] at hf <;>
    simp [set_draft_field_data, setMultiRef, processTokens_invalid]

/-- Witness for C3: in `env0`, `nope` and `zed` fail group lookup while
`grp` succeeds, and `nope` and `zed` are collected in order. -/
theorem multiref_invalid_tokens_w :
    (set_draft_field_data env0 ws0 .target_groups
        (.s "grp, nope, zed")).invalid_entries =
      (splitCommaSpace "grp, nope, zed").filter
        (fun v => !(v == "") && resolveFails env0 .target_groups v) :=
  multiref_invalid_tokens env0 ws0 .target_groups "grp, nope, zed" rfl

/-- C10: processing a multi-reference field first clears the existing
set, so afterwards the set holds exactly the entities of the tokens that
resolved — the right-hand side does not mention the prior state `ws`, so
members not re-supplied vanish even when other tokens were invalid. -/
theorem multiref_refs_exact (env : LookupEnv) (ws : WorkState)
    (f : FieldName) (d : String) (x : Nat) (hf : multiRef f = true) :
    x ∈ getRefs (set_draft_field_data env ws f (.s d)).state.draft f ↔
      ∃ v, v ∈ splitCommaSpace d ∧ ¬v = "" ∧
        resolveToken env f v = .ok x := by
  cases f <;> simp [multiRef] at hf <;>
    simp [set_draft_field_data, setMultiRef, getRefs, setRefs,
      processTokens_mem]

/-- Witness for C10: with `depends_on := [9]` already set, review request
`5` is in the final set iff some token resolves to it (it does). -/
theorem multiref_refs_exact_w :
    5 ∈ getRefs (set_draft_field_data env0
        { ws0 with draft := { draft0 with depends_on := [9] } }
        .depends_on (.s "5, 77")).state.draft .depends_on ↔
      ∃ v, v ∈ splitCommaSpace "5, 77" ∧ ¬v = "" ∧
        resolveToken env0 .depends_on v = .ok 5 :=
  multiref_refs_exact env0 { ws0 with draft := { draft0 with depends_on := [9] } }
    .depends_on "5, 77" 5 rfl

/-- C7: applying the same raw multi-reference input twice in succession
leaves the same state as applying it once — the branch clears the set
before resolving, and the lookup environment is a fixed function, so the
second pass recomputes the identical reference set. -/
theorem multiref_idem (env : LookupEnv) (ws : WorkState) (f : FieldName)
    (d : String) (hf : multiRef f = true) :
    (set_draft_field_data env
        (set_draft_field_data env ws f (.s d)).state f (.s d)).state =
      (set_draft_field_data env ws f (.s d)).state := by
  cases f <;> simp [multiRef] at hf <;>
    simp [set_draft_field_data, setMultiRef, setRefs]

/-- Witness for C7 at a concrete field and input. -/
theorem multiref_idem_w :
    (set_draft_field_data env0
        (set_draft_field_data env0 ws0 .target_people
          (.s "alice bob")).state .target_people (.s "alice bob")).state =
      (set_draft_field_data env0 ws0 .target_people (.s "alice bob")).state :=
  multiref_idem env0 ws0 .target_people "alice bob" rfl

/-- C5: a summary containing a newline is rejected with the fixed
message and the whole working state (in particular the draft's summary)
is left unchanged; a summary without a newline is assigned directly and
yields no invalid entry. -/
theorem summary_newline_rejected (env : LookupEnv) (ws : WorkState)
    (d : String) :
    (d.toList.contains '\n' = true →
      (set_draft_field_data env ws .summary (.s d)).invalid_entries =
          ["Summary cannot contain newlines"] ∧
        (set_draft_field_data env ws .summary (.s d)).state = ws) ∧
    (d.toList.contains '\n' = false →
      (set_draft_field_data env ws .summary (.s d)).invalid_entries = [] ∧
        (set_draft_field_data env ws .summary (.s d)).state =
          { ws with draft := { ws.draft with summary := d } }) := by
  constructor <;> intro h <;> simp at h <;>
    simp [set_draft_field_data, h]

/-- Witness for C5: one rejected summary, one accepted one. -/
theorem summary_newline_rejected_w :
    ((set_draft_field_data env0 ws0 .summary (.s "a\nb")).invalid_entries =
        ["Summary cannot contain newlines"] ∧
      (set_draft_field_data env0 ws0 .summary (.s "a\nb")).state = ws0) ∧
    ((set_draft_field_data env0 ws0 .summary (.s "ok")).invalid_entries = [] ∧
      (set_draft_field_data env0 ws0 .summary (.s "ok")).state =
        { ws0 with draft := { ws0.draft with summary := "ok" } }) :=
  ⟨(summary_newline_rejected env0 ws0 "a\nb").1 (by decide),
   (summary_newline_rejected env0 ws0 "ok").2 (by decide)⟩

/-- C6: setting `changedescription` on a draft without an attached
change description records the fixed message and mutates nothing;
with one attached, its text is set to the input and the object is
reported as the (only) side-modified object, with no invalid entry. -/
theorem changedescription_gate (env : LookupEnv) (ws : WorkState)
    (d : String) :
    (ws.cd = none →
      set_draft_field_data env ws .changedescription (.s d) =
        { state := ws, data := .s d, modified_objects := [],
          invalid_entries :=
            ["Change descriptions cannot be used for drafts of new review requests"] }) ∧
    (∀ t, ws.cd = some t →
      set_draft_field_data env ws .changedescription (.s d) =
        { state := { ws with cd := some d }, data := .s d,
          modified_objects := [.changedesc], invalid_entries := [] }) := by
  constructor
  · intro h
    simp [set_draft_field_data, h]
  · intro t h
    simp [set_draft_field_data, h]

/-- Witness for C6: both the unattached and the attached case. -/
theorem changedescription_gate_w :
    (set_draft_field_data env0 ws0 .changedescription (.s "new text") =
        { state := ws0, data := .s "new text", modified_objects := [],
          invalid_entries :=
            ["Change descriptions cannot be used for drafts of new review requests"] }) ∧
    (set_draft_field_data env0 { ws0 with cd := some "old" }
        .changedescription (.s "new text") =
      { state := { ws0 with cd := some "new text" }, data := .s "new text",
        modified_objects := [.changedesc], invalid_entries := [] }) :=
  ⟨(changedescription_gate env0 ws0 "new text").1 rfl,
   (changedescription_gate env0 { ws0 with cd := some "old" } "new text").2
     "old" rfl⟩

/-! ### Claim theorems: bug-list sanitisation -/

/-- The bug-list transformation as the amended claim describes it: split
on commas, trim whitespace, drop entries empty after trimming, then
strip a single leading `#` from each survivor. -/
def specBugList (s : String) : List String :=
  (((splitChar ',' s).map pyStrip).filter (fun b => !(b == ""))).map
    stripLeadHash

/-- The bug-list transformation as claim C4 originally words it: split
on commas, trim whitespace, strip a single leading `#`, and only then
drop the entries that became empty. -/
def claimBugList (s : String) : List String :=
  (((splitChar ',' s).map pyStrip).map stripLeadHash).filter
    (fun b => !(b == ""))

/-- Lemma: `_sanitize_bug_ids` computes exactly the amended claim's pipeline. -/
theorem sanitize_eq_spec (s : String) :
    sanitize_bug_ids s = specBugList s := by
  unfold sanitize_bug_ids specBugList
  induction splitChar ',' s with
  | nil => simp
  | cons b rest ih =>
    by_cases hb : pyStrip b = ""
    · simpa [List.filterMap_cons, hb] using ih
    · simpa [List.filterMap_cons, hb] using ih

/-- C4 (amended): for every `bugs_closed` input the stored field value is
the comma-join of: split on commas, trim whitespace per entry, drop
entries that are empty after trimming, then strip one leading `#` (an
entry consisting of just `#` therefore survives as an empty string);
order is preserved, no invalid entry and no side-modified object is ever
produced, and the claim's example input is stored as `12,34,56`. -/
theorem bugs_closed_stored :
    (∀ (env : LookupEnv) (ws : WorkState) (d : String),
      (set_draft_field_data env ws .bugs_closed
          (.s d)).state.draft.bugs_closed =
          String.intercalate "," (specBugList d) ∧
        (set_draft_field_data env ws .bugs_closed (.s d)).invalid_entries =
          [] ∧
        (set_draft_field_data env ws .bugs_closed (.s d)).modified_objects =
          []) ∧
    String.intercalate "," (specBugList "#12, 34 ,, #56") = "12,34,56" := by
  constructor
  · intro env ws d
    simp [set_draft_field_data, sanitize_eq_spec]
  · decide

/-- C4 counterexample: on input `"#,12"` the code stores `",12"` — the
lone-`#` entry is trimmed to `#`, survives the emptiness check, and only
then loses its `#`, remaining as an empty string — while the claim's
described pipeline (drop entries that become empty after `#`-stripping)
yields `"12"`. -/
theorem bugs_closed_claim_cex :
    (set_draft_field_data env0 ws0 .bugs_closed
        (.s "#,12")).state.draft.bugs_closed = ",12" ∧
    String.intercalate "," (claimBugList "#,12") = "12" ∧
    (",12" : String) ≠ "12" := by
  refine ⟨by decide, by decide, by decide⟩

/-! ### Claim theorems: the update, create and delete operations -/

/-- C1: when some field produced invalid tokens and the save was not
forced (`always_save = false`), `update` returns the validation-error
result and the persistent store — draft row, its multi-reference sets
and the change-description row alike — is exactly what it was before the
request, and the publish pipeline was not invoked. -/
theorem update_invalid_unsaved (env : LookupEnv) (w : World)
    (inp : UpdateInput) (pp : Option String) (w' : World)
    (fs : List (FieldName × List String)) (d : WorkState)
    (h : update env w false inp pp = (w', .invalidFormData fs d)) :
    w'.store = w.store ∧ w'.publishCount = w.publishCount := by
  unfold update at h
  by_cases h1 : w.rrExists = false
  · rw [if_pos h1] at h
    injection h with _ hcon
    exact UpdateResult.noConfusion hcon
  rw [if_neg h1] at h
  by_cases h2 : w.canMutate = false
  · rw [if_pos h2] at h
    injection h with _ hcon
    exact UpdateResult.noConfusion hcon
  rw [if_neg h2] at h
  simp only at h
  by_cases hi : (runFields env inp (loadDraft w)).2.2.isEmpty
  · rw [if_pos hi] at h
    by_cases hp : truthyPost pp = true
    · rw [if_pos hp] at h
      injection h with _ hcon
      exact UpdateResult.noConfusion hcon
    · rw [if_neg hp] at h
      injection h with _ hcon
      exact UpdateResult.noConfusion hcon
  · rw [if_neg hi] at h
    rw [Bool.not_eq_true] at hi
    injection h with hw _
    subst hw
    simp [hi]

/-- Witness for C1: an update whose `summary` contains a newline leaves
the world's store and publish count untouched. -/
theorem update_invalid_unsaved_w :
    w0.store = w0.store ∧ w0.publishCount = w0.publishCount :=
  update_invalid_unsaved env0 w0 { summary := some "a\nb" } none w0
    [(.summary, ["Summary cannot contain newlines"])] ws0 (by decide)

/-- C2: on an update that supplies `public=true` (a parsed `true` and a
non-empty raw POST value) and produces no invalid field, the publish
pipeline runs exactly once and the stored draft no longer exists
afterwards; and whenever any field produced invalid tokens, publish is
not invoked at all. -/
theorem update_public_publish (env : LookupEnv) (w : World) (a : Bool)
    (inp : UpdateInput) (pp : Option String) (w' : World) (r : UpdateResult)
    (_hpub : inp.publicFlag = some true)
    (hpp : ∃ s, pp = some s ∧ ¬s = "")
    (h : update env w a inp pp = (w', r)) :
    (∀ d, r = .ok 200 d →
      w'.publishCount = w.publishCount + 1 ∧ w'.store.draft = none) ∧
    (∀ fs d, r = .invalidFormData fs d →
      w'.publishCount = w.publishCount) := by
  have htp : truthyPost pp = true := by
    obtain ⟨s, rfl, hs⟩ := hpp
    simp [truthyPost, hs]
  unfold update at h
  by_cases h1 : w.rrExists = false
  · rw [if_pos h1] at h
    injection h with hw hr
    subst hw; subst hr
    exact ⟨fun d hd => UpdateResult.noConfusion hd,
           fun fs d hd => UpdateResult.noConfusion hd⟩
  rw [if_neg h1] at h
  by_cases h2 : w.canMutate = false
  · rw [if_pos h2] at h
    injection h with hw hr
    subst hw; subst hr
    exact ⟨fun d hd => UpdateResult.noConfusion hd,
           fun fs d hd => UpdateResult.noConfusion hd⟩
  rw [if_neg h2] at h
  simp only at h
  by_cases hi : (runFields env inp (loadDraft w)).2.2.isEmpty
  · rw [if_pos hi, if_pos htp] at h
    injection h with hw hr
    subst hw; subst hr
    refine ⟨fun d hd => ?_, fun fs d hd => UpdateResult.noConfusion hd⟩
    exact ⟨rfl, rfl⟩
  · rw [if_neg hi] at h
    injection h with hw hr
    subst hw; subst hr
    refine ⟨fun d hd => UpdateResult.noConfusion hd, fun fs d hd => rfl⟩

/-- Concrete valid publishing input for the C2 witness. -/
def inpC2 : UpdateInput := { summary := some "ok", publicFlag := some true }

/-- Draft state after applying `inpC2` to `w0`'s fresh draft. -/
def wsC2 : WorkState :=
  { draft := { draft0 with summary := "ok", publicFlag := true }, cd := none }

/-- World after the publishing update of the C2 witness. -/
def wC2 : World := { w0 with publishCount := 1 }

/-- Witness for C2: a valid `public=true` update bumps the publish count
once and removes the stored draft. -/
theorem update_public_publish_w :
    wC2.publishCount = w0.publishCount + 1 ∧ wC2.store.draft = none :=
  (update_public_publish env0 w0 false inpC2 (some "1") wC2 (.ok 200 wsC2)
      rfl ⟨"1", rfl, by decide⟩ (by decide)).1 wsC2 rfl

/-- C8: `delete` never creates a draft.  A missing review request or a
missing draft yields the does-not-exist error with the world unchanged;
an existing draft with a failing mutate-permission gate yields the
permission-denied error with the world unchanged; otherwise the draft is
removed from the store and the result is status `204` with an empty
body. -/
theorem delete_spec (w : World) :
    (w.rrExists = false → delete w = (w, .doesNotExist)) ∧
    (w.store.draft = none → delete w = (w, .doesNotExist)) ∧
    (w.rrExists = true → w.canMutate = false →
      (∃ dr, w.store.draft = some dr) → delete w = (w, .permissionDenied)) ∧
    (w.rrExists = true → w.canMutate = true →
      (∃ dr, w.store.draft = some dr) →
      delete w = ({ w with store := { w.store with draft := none } },
        .deleted 204 [])) := by
  refine ⟨fun h1 => ?_, fun h1 => ?_, fun h1 h2 h3 => ?_, fun h1 h2 h3 => ?_⟩
  · simp [delete, h1]
  · by_cases h2 : w.rrExists = false
    · simp [delete, h2]
    · simp [delete, h2, h1]
  · obtain ⟨dr, hdr⟩ := h3
    simp [delete, h1, h2, hdr]
  · obtain ⟨dr, hdr⟩ := h3
    simp [delete, h1, h2, hdr]

/-- A world holding a persisted draft. -/
def wDraft : World := { w0 with store := { draft := some draft0, cd := none } }

/-- A world whose review request does not exist. -/
def wNoRR : World := { w0 with rrExists := false }

/-- A world with a persisted draft but no mutate permission. -/
def wNoPerm : World := { wDraft with canMutate := false }

/-- Witness for C8: all four cases at concrete worlds. -/
theorem delete_spec_w :
    delete wNoRR = (wNoRR, .doesNotExist) ∧
    delete w0 = (w0, .doesNotExist) ∧
    delete wNoPerm = (wNoPerm, .permissionDenied) ∧
    delete wDraft = ({ wDraft with store := { wDraft.store with draft := none } },
      .deleted 204 []) :=
  ⟨(delete_spec wNoRR).1 rfl,
   (delete_spec w0).2.1 rfl,
   (delete_spec wNoPerm).2.2.1 rfl rfl ⟨draft0, rfl⟩,
   (delete_spec wDraft).2.2.2 rfl rfl ⟨draft0, rfl⟩⟩

/-- C9: `create` equals `update` on the same inputs, except that an
update result `(200, draft)` is remapped to `(201, draft)` with the rest
of the tuple unchanged; every other update result — validation failures
and error codes alike — passes through unmodified, as does the resulting
world. -/
theorem create_remaps (env : LookupEnv) (w : World) (a : Bool)
    (inp : UpdateInput) (pp : Option String) (w' : World) (r : UpdateResult)
    (h : update env w a inp pp = (w', r)) :
    (∀ d, r = .ok 200 d → create env w a inp pp = (w', .ok 201 d)) ∧
    ((∀ d, r ≠ .ok 200 d) → create env w a inp pp = (w', r)) := by
  constructor
  · rintro d rfl
    simp [create, remap200, h]
  · intro hne
    cases r with
    | ok s d =>
      have hs : ¬s = 200 := fun hcon => hne d (by rw [hcon])
      simp [create, remap200, h, hs]
    | doesNotExist => simp [create, remap200, h]
    | permissionDenied => simp [create, remap200, h]
    | invalidFormData fs d => simp [create, remap200, h]

/-- Concrete input for the C9 witness. -/
def inpC9 : UpdateInput := { branch := some "release" }

/-- Draft state after applying `inpC9` to `w0`'s fresh draft. -/
def wsC9 : WorkState :=
  { draft := { draft0 with branch := "release" }, cd := none }

/-- World after the successful update of the C9 witness. -/
def wC9 : World :=
  { w0 with store := { draft := some wsC9.draft, cd := none } }

/-- Witness for C9: a plain successful create comes back as 201. -/
theorem create_remaps_w :
    create env0 w0 false inpC9 none = (wC9, .ok 201 wsC9) :=
  (create_remaps env0 w0 false inpC9 none wC9 (.ok 200 wsC9) (by decide)).1
    wsC9 rfl
